import Mathlib

/-!
Verification of the `dupes` duplicate-file scanner (src/src/main.rs and
src/src/dupe_scanner.rs) against its natural-language specification.

The development is a shallow embedding of the program:

* `hashChunks` / `hashFileRun` embed `hash_file`: `File::open(path).unwrap()`
  followed by a loop that reads into a fixed 4096-byte buffer and folds each
  chunk into a running SHA-1 accumulator.  The stream of read results the
  operating system hands to the loop is modelled as a finite `List ReadRes`
  prefix; `hashChunks` returns `none` when the loop is still spinning past
  that prefix (the code retries failed reads forever).  SHA-1 itself lives in
  an external crate; it is modelled by `sha1M`, a pure function of the
  absorbed bytes — every claim here depends only on the digest being a
  deterministic function of the absorbed content, never on collision
  behaviour.
* `Node` / `Entries` embed the file-system tree seen through the standard
  library calls the scanner makes (`Path::is_dir`, `Path::is_symlink`,
  `read_dir`, iteration that can fail per entry).  Symlinks are resolved at
  the entry: an entry carries its `is_symlink` flag and the node its target
  resolves to, exactly the view `is_dir`/`is_symlink` give the code.
* `scanNode` / `scanEntries` embed `DupeScanner::scan_directory`
  (`main.rs`'s free `scan_directory` is the same function with the two
  symlink checks absent, i.e. the `ignoreSymlinks = false` instance).
* `handleFile`, `runTasks`, `findDupes`, `mainRun` embed `handle_file`,
  the worker pool draining its queue, `find_dupes`, and `main`.
* `stepCall` / `runSched` embed the two lock-protected phases of
  `handle_file`'s registry interaction (read-locked lookup, then
  write-locked insert) as atomic steps interleaved by a schedule, for the
  claims about concurrent check-or-insert.
-/

namespace Dupes

/-! ### Hasher: the read loop of `hash_file` -/

/-- `const BUFFER_SIZE: usize = 4096;` — the fixed chunk size. -/
def BUFFER_SIZE : Nat := 4096

/-- Result of one `reader.read(&mut buffer)` call: `ok chunk` (with
`chunk.length ≤ BUFFER_SIZE` for a real reader; `ok []` is end of file) or
`err` (an I/O error). -/
inductive ReadRes where
  | ok (chunk : List Nat) : ReadRes
  | err : ReadRes
deriving DecidableEq

/-- The `loop` in `hash_file`, run against a finite prefix of read results:
`Ok(0)` breaks the loop, `Ok(n)` folds the chunk into the accumulator, and
`Err` is silently skipped (`if let Ok(bytes_read) = reader.read(..)` has no
else branch, so the loop just retries).  Returns the absorbed bytes on break,
`none` if the loop is still running when the modelled prefix runs out. -/
def hashChunks : List ReadRes → List Nat → Option (List Nat)
  | [], _ => none
  | ReadRes.ok [] :: _, acc => some acc
  | ReadRes.ok c :: rest, acc => hashChunks rest (acc ++ c)
  | ReadRes.err :: rest, acc => hashChunks rest acc

/-- Model of the external SHA-1 digest: a pure function of the absorbed
bytes.  Only determinism and content-dependence matter to the claims, so the
absorbed content itself stands in for its digest. -/
def sha1M (content : List Nat) : List Nat := content

/-- Possible outcomes of running `hash_file` on a path.  `ioError` is the
outcome the specification's contract describes (returning an I/O error); the
code never produces it. -/
inductive HashOutcome where
  | ok (digest : List Nat)
  | ioError
  | panicked
  | spinning
deriving DecidableEq

/-- `hash_file`: `File::open(path)` first (`none` models an open failure, on
which `.unwrap()` panics), then the read loop.  `spinning` records that the
loop had not terminated within the modelled read prefix. -/
def hashFileRun : Option (List ReadRes) → HashOutcome
  | none => HashOutcome.panicked
  | some rs =>
    match hashChunks rs [] with
    | some content => HashOutcome.ok (sha1M content)
    | none => HashOutcome.spinning

/-- `hash_file`'s loop never finishes, at any horizon, on the given family of
read prefixes. -/
def hashNeverFinishes (prefixes : Nat → List ReadRes) : Prop :=
  ∀ n, hashChunks (prefixes n) [] = none

/-! ### File-system model and the tree walk (`scan_directory`) -/

/-- One component of an OS path.  `utf8 s` is a component whose bytes are
valid UTF-8 (so `to_str` sees it), `raw bytes` one that is not. -/
inductive PathName where
  | utf8 (s : String)
  | raw (bytes : List Nat)
deriving DecidableEq

/-- An OS path, as a list of components. -/
abbrev RPath := List PathName

def pathNameStr : PathName → Option String
  | PathName.utf8 s => some s
  | PathName.raw _ => none

/-- `Path::to_str`: `some` of the rendered path when every component is
valid UTF-8, `none` otherwise. -/
def pathStr : RPath → Option String
  | [] => some ""
  | [p] => pathNameStr p
  | p :: rest =>
    match pathNameStr p, pathStr rest with
    | some s, some t => some (s ++ "/" ++ t)
    | _, _ => none

mutual
/-- A node of the file system as the scanner observes it, after resolving a
possible symlink: a regular file with its byte content, a path on which
`stat` fails (`missing` — `is_dir` is `false`, `File::open` fails), a
directory whose `read_dir` call fails (`unreadableDir` — `is_dir` is `true`),
or a readable directory with its entry stream. -/
inductive Node where
  | file (content : List Nat) : Node
  | missing : Node
  | unreadableDir : Node
  | dir (entries : Entries) : Node

/-- The entry stream `read_dir` yields: each entry carries its name, its
`is_symlink` flag, and the node its path resolves to; `failEntry` is an
iteration step returning `Err` (a vanished entry), at which point the `?` in
the loop returns and nothing further is observed. -/
inductive Entries where
  | nil : Entries
  | failEntry : Entries
  | cons (name : String) (isSymlink : Bool) (target : Node) (rest : Entries) : Entries
end

/-- `Path::is_dir()` — follows symlinks (the node is already the resolved
target); `true` for any directory, readable or not. -/
def isDirNode : Node → Bool
  | Node.dir _ => true
  | Node.unreadableDir => true
  | _ => false

/-- A unit of work submitted to the worker pool by
`self.worker_pool.execute(move || handle_file(seen_copy, path.as_path()))`:
the path it will hash, the node that path resolves to, and (ghost data for
the specifications) whether the submitted entry itself was a symlink. -/
structure STask where
  path : RPath
  isSymlink : Bool
  node : Node

mutual
/-- `DupeScanner::scan_directory` on a single path.  Returns the tasks
submitted to the pool, in submission order, and whether the call returned
`Err` (an enumeration error).  The `if path.is_dir()` branch enumerates
entries; the `else` branch (a non-directory root) skips a symlink when
`ignoreSymlinks` is set and otherwise submits one task.  `main.rs`'s free
`scan_directory` is this function with `ig = false` (it has no symlink
checks). -/
def scanNode (ig : Bool) (p : RPath) (isSym : Bool) : Node → List STask × Bool
  | Node.dir es => scanEntries ig p es
  | Node.unreadableDir => ([], true)
  | Node.file c =>
    if ig && isSym then ([], false) else ([⟨p, isSym, Node.file c⟩], false)
  | Node.missing =>
    if ig && isSym then ([], false) else ([⟨p, isSym, Node.missing⟩], false)

/-- The `for entry in std::fs::read_dir(path)?` loop: a failing entry makes
the whole call return `Err` at once (tasks already submitted stay submitted);
a non-directory entry is skipped when it is a symlink and `ignoreSymlinks` is
set, otherwise submitted; a directory entry is recursed into synchronously,
an `Err` from the recursion propagating immediately — note that the
`is_symlink` flag is never consulted for an entry whose `is_dir()` holds. -/
def scanEntries (ig : Bool) (p : RPath) : Entries → List STask × Bool
  | Entries.nil => ([], false)
  | Entries.failEntry => ([], true)
  | Entries.cons name isSym target rest =>
    if isDirNode target then
      match scanNode ig (p ++ [PathName.utf8 name]) isSym target with
      | (ts, true) => (ts, true)
      | (ts, false) =>
        let r := scanEntries ig p rest
        (ts ++ r.1, r.2)
    else
      if ig && isSym then scanEntries ig p rest
      else
        let r := scanEntries ig p rest
        (⟨p ++ [PathName.utf8 name], isSym, target⟩ :: r.1, r.2)
end

/-! ### Fingerprint registry and `handle_file` -/

/-- The shared `HashMap<Vec<u8>, String>` behind the `RwLock`, as an
association list; `insert` conses at the front, so a later insert for the
same digest shadows (observationally overwrites) the earlier entry, exactly
as `HashMap::insert` replaces the value. -/
abbrev Registry := List (List Nat × String)

/-- `map.get(&digest)`. -/
def lookupReg : Registry → List Nat → Option String
  | [], _ => none
  | (d, s) :: rest, k => if d = k then some s else lookupReg rest k

/-- `map.insert(digest, path)` (replaces any previous value for the key). -/
def regInsert (reg : Registry) (d : List Nat) (s : String) : Registry :=
  (d, s) :: reg

/-- What `hash_file(path)` produces for the node the path resolves to:
`some digest` for a readable regular file, `none` (a panic via the
`File::open(path).unwrap()`) for a path that cannot be opened.  Tasks are
only ever submitted for non-directory nodes. -/
def hashNode : Node → Option (List Nat)
  | Node.file c => some (sha1M c)
  | _ => none

/-- Result of one `handle_file` call: the lines it printed to stdout, the
registry as it left it, and whether it panicked. -/
structure HFResult where
  output : List String
  reg : Registry
  panicked : Bool
deriving DecidableEq

/-- `handle_file(seen_files, path)`: hash the file (an unopenable file
panics inside `hash_file`); look the digest up under the read lock; if a
prior path exists print `"{} = {}"` (the `path.to_str().unwrap()` in the
format arguments panics first on a non-UTF-8 path); otherwise insert
`String::from(path.to_str().unwrap())` under the write lock (again panicking
on a non-UTF-8 path before touching the map). -/
def handleFile (reg : Registry) (p : RPath) (n : Node) : HFResult :=
  match hashNode n with
  | none => ⟨[], reg, true⟩
  | some h =>
    match lookupReg reg h with
    | some existing =>
      match pathStr p with
      | some s => ⟨[s ++ " = " ++ existing], reg, false⟩
      | none => ⟨[], reg, true⟩
    | none =>
      match pathStr p with
      | some s => ⟨[], regInsert reg h s, false⟩
      | none => ⟨[], reg, true⟩

/-- The worker pool draining its queue, in one representative order.  A task
that panics only kills its worker (the `threadpool` crate replaces a
panicked worker), so later tasks still run; its partial effects are nothing,
as `handle_file` panics before printing or inserting. -/
def runTasks (reg : Registry) : List STask → Registry × List String
  | [] => (reg, [])
  | t :: ts =>
    let r := handleFile reg t.path t.node
    let rest := runTasks r.reg ts
    (rest.1, r.output ++ rest.2)

/-! ### `find_dupes` and `main` -/

/-- Outcome of `DupeScanner::find_dupes` (and of the scan half of `main`):
the tasks that were submitted, whether the walk returned `Err`, and whether
`worker_pool.join()` was reached — the source is
`self.scan_directory(&start_dir)?; self.worker_pool.join(); Ok(())`, so the
`?` skips the `join()` whenever the walk errs. -/
structure ScanOutcome where
  tasks : List STask
  walkErr : Bool
  joined : Bool

def findDupes (ig : Bool) (rootPath : RPath) (rootIsSym : Bool) (root : Node) :
    ScanOutcome :=
  let r := scanNode ig rootPath rootIsSym root
  ⟨r.1, r.2, !r.2⟩

/-- Exit code and duplicate-report lines of one run of `main` (main.rs). -/
structure MainResult where
  exitCode : Nat
  dupOutput : List String
deriving DecidableEq

/-- `main`: scan the root (no symlink filtering in main.rs), `?` turning a
walk error into an `Err` return from `main` — which the Rust runtime maps to
exit code 1 after printing the error — and otherwise `tasks.join()` and exit
0.  In the error case no line modelled here is printed: for the claims below
the error always occurs before any task was submitted. -/
def mainRun (rootPath : RPath) (root : Node) : MainResult :=
  let r := findDupes false rootPath false root
  if r.walkErr then ⟨1, []⟩
  else ⟨0, (runTasks [] r.tasks).2⟩

/-! ### Interleaved check-or-insert (the two lock regions of `handle_file`) -/

/-- One check-or-insert client: the digest it computed and the path it
carries (assumed valid UTF-8 here; C10 covers the other case). -/
structure RCall where
  digest : List Nat
  path : String
deriving DecidableEq

/-- Progress of one `handle_file` call through its registry interaction:
not yet at the read lock; holding the lookup result after releasing the read
lock; finished, remembering what the lookup had observed. -/
inductive Phase where
  | start : Phase
  | observed (r : Option String) : Phase
  | done (r : Option String) : Phase
deriving DecidableEq

/-- One atomic step of a client: the read-locked `seen_files.read().get(..)`
block, or, after a miss, the write-locked
`seen_files.write().insert(hash, path)`.  A call that observed a hit only
prints (no registry effect). -/
def stepCall (reg : Registry) (c : RCall) : Phase → Registry × Phase
  | Phase.start => (reg, Phase.observed (lookupReg reg c.digest))
  | Phase.observed none => (regInsert reg c.digest c.path, Phase.done none)
  | Phase.observed (some s) => (reg, Phase.done (some s))
  | Phase.done r => (reg, Phase.done r)

/-- Run a schedule: each schedule item names the client that takes its next
atomic step.  Out-of-range indices do nothing. -/
def runSched (reg : Registry) (calls : List RCall) (phases : List Phase) :
    List Nat → Registry × List Phase
  | [] => (reg, phases)
  | i :: rest =>
    match calls[i]?, phases[i]? with
    | some c, some ph =>
      let s := stepCall reg c ph
      runSched s.1 calls (phases.set i s.2) rest
    | _, _ => runSched reg calls phases rest

/-- The whole registry interaction of one `handle_file` call executed
without interference: exactly the composition of the two `stepCall` phases
back to back. -/
def checkOrInsert (reg : Registry) (c : RCall) : Registry × Option String :=
  match lookupReg reg c.digest with
  | some s => (reg, some s)
  | none => (regInsert reg c.digest c.path, none)

/-- Sequential (non-interleaved) execution of a list of check-or-insert
calls; returns the final registry and each call's observation. -/
def seqRun (reg : Registry) : List RCall → Registry × List (Option String)
  | [] => (reg, [])
  | c :: cs =>
    let r := checkOrInsert reg c
    let rest := seqRun r.1 cs
    (rest.1, r.2 :: rest.2)

/-! ### Concrete scenarios used by the theorems below -/

/-- Two concurrent check-or-insert clients carrying the same digest `[7]`. -/
def twoSameDigest : List RCall := [⟨[7], "a"⟩, ⟨[7], "b"⟩]

/-- The schedule read-A, read-B, insert-A, insert-B on `twoSameDigest`,
started on an empty registry; `steps` is the schedule prefix executed. -/
def twoSameRun (steps : List Nat) : Registry × List Phase :=
  runSched [] twoSameDigest [Phase.start, Phase.start] steps

/-- A directory whose only entry `ln` is a symlink to a directory holding
one regular file `f`. -/
def symDirFs : Node :=
  Node.dir (Entries.cons "ln" true
    (Node.dir (Entries.cons "f" false (Node.file [1]) Entries.nil))
    Entries.nil)

/-- A root directory whose first entry `sub` is an unreadable subdirectory
and whose second entry `b` is a regular file. -/
def errBelowRootFs : Node :=
  Node.dir (Entries.cons "sub" false Node.unreadableDir
    (Entries.cons "b" false (Node.file [2]) Entries.nil))

/-! ### Helper lemmas -/

theorem hashChunks_err_skip (rest : List ReadRes) (acc : List Nat) :
    hashChunks (ReadRes.err :: rest) acc = hashChunks rest acc := rfl

theorem hashChunks_replicate_err (n : Nat) :
    hashChunks (List.replicate n ReadRes.err) [] = none := by
  induction n with
  | zero => rfl
  | succ k ih => simpa [List.replicate, hashChunks] using ih

/-- Running the loop over nonempty chunks followed by an end-of-file read
absorbs exactly the concatenation of the chunks, in order. -/
theorem hashChunks_ok_chunks (cs : List (List Nat)) (tail : List ReadRes) :
    ∀ acc, (∀ c ∈ cs, c ≠ []) →
      hashChunks (cs.map ReadRes.ok ++ ReadRes.ok [] :: tail) acc =
        some (acc ++ cs.flatten) := by
  induction cs with
  | nil =>
    intro acc _
    simp [hashChunks]
  | cons c cs ih =>
    intro acc h
    have hc : c ≠ [] := h c (List.mem_cons_self c cs)
    have hcs : ∀ d ∈ cs, d ≠ [] := fun d hd => h d (List.mem_cons_of_mem _ hd)
    cases c with
    | nil => exact absurd rfl hc
    | cons x xs =>
      simp only [List.map_cons, List.cons_append, hashChunks, List.append_eq]
      rw [ih (acc ++ (x :: xs)) hcs]
      simp

theorem lookupReg_insert_self (reg : Registry) (d : List Nat) (s : String) :
    lookupReg (regInsert reg d s) d = some s := by
  simp [regInsert, lookupReg]

/-- Once a digest is present, every later sequential call carrying it
observes the stored path and leaves the registry untouched. -/
theorem seqRun_all_hit (d : List Nat) (s : String) :
    ∀ (cs : List RCall) (reg : Registry), lookupReg reg d = some s →
      (∀ c ∈ cs, c.digest = d) →
      seqRun reg cs = (reg, List.replicate cs.length (some s)) := by
  intro cs
  induction cs with
  | nil =>
    intro reg _ _
    simp [seqRun]
  | cons c cs ih =>
    intro reg hreg hall
    have hcd : c.digest = d := hall c (List.mem_cons_self c cs)
    have hrest : ∀ x ∈ cs, x.digest = d :=
      fun x hx => hall x (List.mem_cons_of_mem _ hx)
    simp only [seqRun, checkOrInsert, hcd, hreg]
    rw [ih reg hreg hrest]
    simp [List.replicate]

mutual
/-- With the ignore-symlinks flag set, no task the walk submits is itself a
symlinked entry (symlinked non-directories are skipped at both submission
sites; directory targets are recursed into, never submitted). -/
theorem scanNode_no_sym_task : ∀ (p : RPath) (s : Bool) (n : Node),
    ∀ t ∈ (scanNode true p s n).1, t.isSymlink = false
  | p, s, Node.file c => by cases s <;> simp [scanNode]
  | p, s, Node.missing => by cases s <;> simp [scanNode]
  | p, s, Node.unreadableDir => by simp [scanNode]
  | p, s, Node.dir es => scanEntries_no_sym_task p es

theorem scanEntries_no_sym_task : ∀ (p : RPath) (es : Entries),
    ∀ t ∈ (scanEntries true p es).1, t.isSymlink = false
  | p, Entries.nil => by simp [scanEntries]
  | p, Entries.failEntry => by simp [scanEntries]
  | p, Entries.cons name sym tgt rest => by
    have hnode := scanNode_no_sym_task (p ++ [PathName.utf8 name]) sym tgt
    have hrest := scanEntries_no_sym_task p rest
    intro t ht
    by_cases hd : isDirNode tgt = true
    · rcases hsc : scanNode true (p ++ [PathName.utf8 name]) sym tgt with ⟨ts, e⟩
      rw [hsc] at hnode
      simp only [scanEntries, hd, if_true, hsc] at ht
      cases e with
      | true => exact hnode t ht
      | false =>
        rcases List.mem_append.mp ht with h1 | h2
        · exact hnode t h1
        · exact hrest t h2
    · simp only [scanEntries, hd, if_false, Bool.true_and] at ht
      cases sym with
      | true => simpa using hrest t (by simpa using ht)
      | false =>
        rcases List.mem_cons.mp (by simpa using ht) with h1 | h2
        · rw [h1]
        · exact hrest t h2
end

/-! ### Claim C1 — registry check-or-insert atomicity -/

/-- Claim C1 is false on the code: `handle_file` takes the read lock for the
lookup and a separate write lock for the insert, so with two calls carrying
the same digest `[7]` the interleaving read-A, read-B, insert-A, insert-B
has both callers observe "no prior value" (both end in `Phase.done none`),
and B's insert overwrites A's already-stored entry — after A's insert the
registry maps `[7]` to `"a"`, after B's to `"b"`, so first writer does not
win. -/
theorem c1_counterexample :
    (twoSameRun [0, 1, 0, 1]).2 = [Phase.done none, Phase.done none] ∧
    lookupReg (twoSameRun [0, 1, 0]).1 [7] = some "a" ∧
    lookupReg (twoSameRun [0, 1, 0, 1]).1 [7] = some "b" := by
  refine ⟨rfl, rfl, rfl⟩

/-- Claim C1, amended: when check-or-insert calls with the same digest do
not interleave (each call's read-locked lookup and write-locked insert run
back to back, as in any sequential execution), exactly the first caller
observes "no prior value", every later caller observes the first caller's
stored path, and the stored entry is never overwritten; the counterexample
above shows that under interleaving several callers can observe "no prior
value" and the last insert wins. -/
theorem c1_amended (reg : Registry) (d : List Nat) (p : String)
    (rest : List RCall) (h0 : lookupReg reg d = none)
    (hall : ∀ c ∈ rest, c.digest = d) :
    (seqRun reg (⟨d, p⟩ :: rest)).2 =
      none :: List.replicate rest.length (some p) ∧
    lookupReg (seqRun reg (⟨d, p⟩ :: rest)).1 d = some p := by
  have hins : lookupReg (regInsert reg d p) d = some p :=
    lookupReg_insert_self reg d p
  simp only [seqRun, checkOrInsert, h0]
  rw [seqRun_all_hit d p rest (regInsert reg d p) hins hall]
  exact ⟨rfl, hins⟩

theorem c1_amended_witness :
    (seqRun [] [⟨[7], "a"⟩, ⟨[7], "b"⟩]).2 = [none, some "a"] ∧
    lookupReg (seqRun [] [⟨[7], "a"⟩, ⟨[7], "b"⟩]).1 [7] = some "a" := by
  have h := c1_amended [] [7] "a" [⟨[7], "b"⟩] rfl (by decide)
  simpa using h

/-! ### Claim C2 — ignore-symlinks policy -/

/-- Claim C2 is false on the code: with ignore-symlinks enabled, a file `f`
reachable only through the symlinked directory `ln` still gets a hashing
task.  `scan_directory` tests `path.is_symlink()` only in the
`!path.is_dir()` branch; a symlinked directory satisfies `is_dir()` (it
follows the link) and is recursed into unconditionally. -/
theorem c2_counterexample :
    (scanNode true [] false symDirFs).1 =
      [⟨[PathName.utf8 "ln", PathName.utf8 "f"], false, Node.file [1]⟩] := rfl

/-- Claim C2, amended: with ignore-symlinks enabled, no symlinked
non-directory entry is ever submitted (every submitted task is a
non-symlink entry, first conjunct), but symlinked directories are still
traversed like ordinary directories, and regular files inside them are
submitted normally (second conjunct, for an arbitrary link name, file name
and content). -/
theorem c2_amended :
    (∀ (p : RPath) (s : Bool) (n : Node),
      ∀ t ∈ (scanNode true p s n).1, t.isSymlink = false) ∧
    (∀ (lname fname : String) (content : List Nat),
      (scanNode true [] false
        (Node.dir (Entries.cons lname true
          (Node.dir (Entries.cons fname false (Node.file content) Entries.nil))
          Entries.nil))).1 =
      [⟨[PathName.utf8 lname, PathName.utf8 fname], false,
        Node.file content⟩]) :=
  ⟨scanNode_no_sym_task, fun _ _ _ => rfl⟩

theorem c2_amended_witness :
    (⟨[PathName.utf8 "ln", PathName.utf8 "f"], false,
      Node.file [1]⟩ : STask).isSymlink = false :=
  c2_amended.1 [] false symDirFs _ (List.mem_singleton.mpr rfl)

/-! ### Claim C3 — nonexistent root path -/

/-- Claim C3 is false on the code: for a root path that does not exist,
`Path::is_dir()` is `false`, so `scan_directory` takes the
single-file branch and submits one hashing task; `hash_file`'s
`File::open(path).unwrap()` panics inside a worker thread, the pool replaces
the worker, `tasks.join()` returns, and `main` returns `Ok(())` — the
process exits with status 0 (the claim demands non-zero).  No duplicate
line is printed. -/
theorem c3_counterexample :
    mainRun [PathName.utf8 "no-such-path"] Node.missing = ⟨0, []⟩ := rfl

/-- Claim C3, amended: a root that exists as a directory but whose listing
fails does make `main` return the error (exit status 1, the runtime printing
the error description) with no duplicate output; but a root path that does
not exist is treated as a single file whose hashing task panics in a worker,
and the process exits 0, again with no duplicate output. -/
theorem c3_amended (p : RPath) :
    mainRun p Node.unreadableDir = ⟨1, []⟩ ∧
    mainRun p Node.missing = ⟨0, []⟩ :=
  ⟨rfl, rfl⟩

/-! ### Claim C4 — per-file open/read failures -/

/-- Claim C4 is false on the code: `hash_file` never returns an I/O error —
on an open failure the `.unwrap()` panics (outcome `panicked`, not
`ioError`). -/
theorem c4_counterexample :
    hashFileRun none = HashOutcome.panicked ∧
    HashOutcome.panicked ≠ HashOutcome.ioError :=
  ⟨rfl, by decide⟩

/-- Claim C4, amended: an open failure panics the hashing task instead of
returning an I/O error; a failed read is silently ignored and retried
(second conjunct); the panic is confined to that one task — it prints
nothing, leaves the registry untouched, and the rest of the scan's tasks run
exactly as if the failed task were absent (third conjunct, the panicking
worker being replaced by the pool). -/
theorem c4_amended :
    hashFileRun none = HashOutcome.panicked ∧
    (∀ (rest : List ReadRes) (acc : List Nat),
      hashChunks (ReadRes.err :: rest) acc = hashChunks rest acc) ∧
    (∀ (reg : Registry) (p : RPath) (b : Bool) (ts : List STask),
      runTasks reg (⟨p, b, Node.missing⟩ :: ts) = runTasks reg ts) :=
  ⟨rfl, fun _ _ => rfl, fun _ _ _ _ => rfl⟩

/-! ### Claim C5 — join/drain before returning -/

/-- Claim C5 is false on the code when the walk errs: `find_dupes` is
`self.scan_directory(&start_dir)?; self.worker_pool.join(); Ok(())` (and
`main` has the same shape), so for a root whose enumeration fails the `?`
returns before `join()` — the walk ends in an error and the pool is not
drained. -/
theorem c5_counterexample :
    (findDupes false [] false Node.unreadableDir).walkErr = true ∧
    (findDupes false [] false Node.unreadableDir).joined = false :=
  ⟨rfl, rfl⟩

/-- Claim C5, amended: whenever the directory walk completes without error,
the top-level scan blocks on `worker_pool.join()` — every submitted task
finishes before it returns; when the walk ends in an error the `?` skips the
join and the scan returns with tasks possibly still running. -/
theorem c5_amended (ig : Bool) (p : RPath) (s : Bool) (n : Node)
    (h : (findDupes ig p s n).walkErr = false) :
    (findDupes ig p s n).joined = true := by
  simp only [findDupes] at h ⊢
  rw [h]
  rfl

theorem c5_amended_witness :
    (findDupes false [] false (Node.file [1])).joined = true :=
  c5_amended false [] false (Node.file [1]) rfl

/-! ### Claim C6 — enumeration errors below the root -/

/-- Claim C6 is false on the code: in `errBelowRootFs` the unreadable
subdirectory `sub` sits strictly below the root, yet the error reaches the
caller of the top-level scan (`walkErr = true`: every recursive
`self.scan_directory(&entry.path())?` re-propagates), and the regular file
`b` listed after it is never enumerated (no task at all is submitted). -/
theorem c6_counterexample :
    (findDupes false [] false errBelowRootFs).walkErr = true ∧
    (findDupes false [] false errBelowRootFs).tasks = [] :=
  ⟨rfl, rfl⟩

/-- Claim C6, amended: an enumeration error strictly below the root aborts
not just that subtree but the entire remaining walk and propagates to the
caller of the top-level scan; tasks submitted before the error remain
submitted.  Here a root holds a regular file followed by an unreadable
subdirectory and then arbitrary further entries `rest`: the scan returns
exactly the one task submitted before the error, reports the error, skips
the join, and never looks at `rest`. -/
theorem c6_amended (p : RPath) (fname dname : String) (c : List Nat)
    (rest : Entries) :
    findDupes false p false
      (Node.dir (Entries.cons fname false (Node.file c)
        (Entries.cons dname false Node.unreadableDir rest))) =
    ⟨[⟨p ++ [PathName.utf8 fname], false, Node.file c⟩], true, false⟩ := rfl

/-! ### Claim C7 — hashing terminates, chunked folding -/

/-- Claim C7 is false on the code: if every read fails, the
`if let Ok(bytes_read) = reader.read(&mut buffer)` loop silently retries
forever — at every horizon `n` of the read stream the loop is still
running, so `hash_file` does not terminate on such a file. -/
theorem c7_counterexample :
    hashNeverFinishes (fun n => List.replicate n ReadRes.err) :=
  fun n => hashChunks_replicate_err n

/-- Claim C7, amended: whenever some read returns zero bytes — which holds
for every file actually read through to end of file — the hash loop
terminates, having folded each fixed-size chunk, in order, into the running
accumulator, and the digest is a function of exactly the concatenated
chunks; only a file on which every read keeps failing makes the loop spin
forever. -/
theorem c7_amended (cs : List (List Nat)) (tail : List ReadRes)
    (hne : ∀ c ∈ cs, c ≠ []) :
    hashFileRun (some (cs.map ReadRes.ok ++ ReadRes.ok [] :: tail)) =
      HashOutcome.ok (sha1M cs.flatten) := by
  simp [hashFileRun, hashChunks_ok_chunks cs tail [] hne]

theorem c7_amended_witness :
    hashFileRun (some [ReadRes.ok [1, 2], ReadRes.ok [3], ReadRes.ok []]) =
      HashOutcome.ok (sha1M [1, 2, 3]) :=
  c7_amended [[1, 2], [3]] [] (by decide)

/-! ### Claim C8 — duplicate report format -/

/-- Claim C8: a `handle_file` call whose digest lookup returns a prior path
`q` prints exactly the one line `path = q` — the stored winning path for
that digest — and changes nothing; a first sighting (lookup misses) prints
nothing and records the path. -/
theorem c8_dup_report (reg : Registry) (p : RPath) (n : Node) (d : List Nat)
    (s : String) (hd : hashNode n = some d) (hp : pathStr p = some s) :
    (∀ q, lookupReg reg d = some q →
      handleFile reg p n = ⟨[s ++ " = " ++ q], reg, false⟩) ∧
    (lookupReg reg d = none →
      handleFile reg p n = ⟨[], regInsert reg d s, false⟩) := by
  constructor
  · intro q hq
    simp [handleFile, hd, hq, hp]
  · intro hq
    simp [handleFile, hd, hq, hp]

theorem c8_witness :
    handleFile [([5], "orig")] [PathName.utf8 "dup"] (Node.file [5]) =
      ⟨["dup = orig"], [([5], "orig")], false⟩ :=
  (c8_dup_report [([5], "orig")] [PathName.utf8 "dup"] (Node.file [5])
    [5] "dup" rfl rfl).1 "orig" (by decide)

/-! ### Claim C9 — hashing is deterministic in the content -/

/-- Claim C9: two hashing runs whose reads deliver the same byte content —
even cut into different chunks, as different paths, file systems or timings
may cut them — produce the identical digest, and that digest is a function
of the concatenated content alone. -/
theorem c9_deterministic (cs1 cs2 : List (List Nat))
    (h1 : ∀ c ∈ cs1, c ≠ []) (h2 : ∀ c ∈ cs2, c ≠ [])
    (hc : cs1.flatten = cs2.flatten) :
    hashFileRun (some (cs1.map ReadRes.ok ++ [ReadRes.ok []])) =
      hashFileRun (some (cs2.map ReadRes.ok ++ [ReadRes.ok []])) ∧
    hashFileRun (some (cs1.map ReadRes.ok ++ [ReadRes.ok []])) =
      HashOutcome.ok (sha1M cs1.flatten) := by
  have e1 := hashChunks_ok_chunks cs1 [] [] h1
  have e2 := hashChunks_ok_chunks cs2 [] [] h2
  constructor
  · simp [hashFileRun, e1, e2, hc]
  · simp [hashFileRun, e1]

theorem c9_witness :
    hashFileRun (some [ReadRes.ok [1], ReadRes.ok [2, 3], ReadRes.ok []]) =
      hashFileRun (some [ReadRes.ok [1, 2], ReadRes.ok [3], ReadRes.ok []]) :=
  (c9_deterministic [[1], [2, 3]] [[1, 2], [3]] (by decide) (by decide)
    (by decide)).1

/-! ### Claim C10 — non-UTF-8 paths -/

/-- Claim C10: for a readable file whose path is not valid UTF-8, the
`path.to_str().unwrap()` in `handle_file` panics — in the duplicate branch
while building the report line's arguments (before anything is printed) and
in the first-sighting branch while building the `String` to insert (before
the map is touched) — so the task prints nothing and registers nothing. -/
theorem c10_non_utf8_panics (reg : Registry) (p : RPath) (n : Node)
    (d : List Nat) (hd : hashNode n = some d) (hp : pathStr p = none) :
    handleFile reg p n = ⟨[], reg, true⟩ := by
  cases hq : lookupReg reg d <;> simp [handleFile, hd, hq, hp]

theorem c10_witness :
    handleFile [] [PathName.raw [255]] (Node.file [3]) = ⟨[], [], true⟩ :=
  c10_non_utf8_panics [] [PathName.raw [255]] (Node.file [3]) [3] rfl rfl

end Dupes
